import Mathlib

/-!
Shallow embedding of the retention-period, timestamp and validation helpers
of the n8n InfluxDB community node (from `nodes/InfluxDb/helpers/client.ts`
and `nodes/InfluxDb/InfluxDb.node.ts`), together with proofs of the
behavioural properties stated in the specification.

JavaScript values are modelled by `JSValue`; JavaScript numbers by `JSNum`
(an exact integer plus the special values NaN and the two infinities, which
is enough for the integral arithmetic done by the code under study).
String builtins (`trim`, `toLowerCase`, decimal rendering of integers,
`Date` parsing and printing) are modelled by explicit executable functions
over `List Char`.  TypeScript functions that can throw are embedded as
`Except String`-valued functions: a JavaScript runtime `TypeError` or
`RangeError`, or an explicit `throw`, becomes an `Except.error`, and a
normal return becomes `Except.ok`.
-/

namespace InfluxDb

/-- Model of a JavaScript number: an exact integer or one of the special
floating-point values.  The helpers under study only ever produce integral
finite values, so an `Int` payload is faithful where it matters. -/
inductive JSNum where
  | finite (q : Int)
  | nan
  | inf
  | negInf
deriving DecidableEq, Repr

/-- Model of a JavaScript value as far as the validators and formatters
inspect one: strings, numbers, booleans, `null`, `undefined`, plain
objects, arrays, and `Date` objects.  A `Date` carries its time value
(`getTime()`): a finite number of milliseconds since the epoch, or NaN for
an Invalid Date. -/
inductive JSValue where
  | str (s : String)
  | num (n : JSNum)
  | bool (b : Bool)
  | null
  | undefined
  | object
  | array
  | date (t : JSNum)
deriving DecidableEq, Repr

/-- Result of the JavaScript `typeof` operator on a modelled value. -/
def jsTypeof : JSValue → String
  | .str _ => "string"
  | .num _ => "number"
  | .bool _ => "boolean"
  | .null => "object"
  | .undefined => "undefined"
  | .object => "object"
  | .array => "object"
  | .date _ => "object"

/-- JavaScript falsiness: `""`, `0`, `NaN`, `false`, `null` and `undefined`
are falsy; every other value (including every `Date`) is truthy. -/
def jsFalsy : JSValue → Bool
  | .str s => s == ""
  | .num (.finite q) => q == 0
  | .num .nan => true
  | .num .inf => false
  | .num .negInf => false
  | .bool b => !b
  | .null => true
  | .undefined => true
  | .object => false
  | .array => false
  | .date _ => false

/-- Extraction of the underlying string of a value known to be a string;
using a string operation on any other value raises a `TypeError`. -/
def asString : JSValue → Except String String
  | .str s => .ok s
  | _ => .error "TypeError"

/-- Model of the whitespace class removed by `String.prototype.trim`
(restricted to the ASCII whitespace characters, which is all the code and
the specification exercise). -/
def isJsWs (c : Char) : Bool :=
  c == ' ' || c == '\t' || c == '\n' || c == '\r' || c == '\x0b' || c == '\x0c'

/-- Model of `String.prototype.trim` on the character list of a string. -/
def jsTrim (cs : List Char) : List Char :=
  ((cs.dropWhile isJsWs).reverse.dropWhile isJsWs).reverse

/-- Model of `String.prototype.toLowerCase` on one character (restricted to
ASCII, which is all the code and the specification exercise). -/
def jsToLowerChar (c : Char) : Char :=
  if 'A' ≤ c && c ≤ 'Z' then Char.ofNat (c.toNat + 32) else c

/-- Model of `String.prototype.toLowerCase` on the character list of a
string. -/
def jsToLower (cs : List Char) : List Char :=
  cs.map jsToLowerChar

/-- Numeric value of a decimal digit character. -/
def digitVal (c : Char) : Nat :=
  c.toNat - 48

/-- Value of an all-digit character list read in base 10; models
`parseInt(s, 10)` on the strings `\d+` produced by the regex capture. -/
def digitsToNat (cs : List Char) : Nat :=
  cs.foldl (fun a c => a * 10 + digitVal c) 0

/-- Character of a decimal digit. -/
def digitChar (n : Nat) : Char :=
  Char.ofNat (48 + n)

/-- Decimal digits of a natural number, least significant first, computed
with explicit fuel so that the definition is structural (the fuel `n + 1`
always suffices because the argument at least halves every step). -/
def natDecRevAux (fuel n : Nat) : List Char :=
  match fuel with
  | 0 => []
  | fuel + 1 =>
    if n < 10 then [digitChar n]
    else digitChar (n % 10) :: natDecRevAux fuel (n / 10)

/-- Decimal digits of a natural number, least significant first; models the
JavaScript number-to-string conversion used by template literals. -/
def natDecRev (n : Nat) : List Char :=
  natDecRevAux (n + 1) n

/-- Decimal rendering of a natural number, modelling the JavaScript
number-to-string conversion for non-negative integers. -/
def natDecimal (n : Nat) : String :=
  ⟨(natDecRev n).reverse⟩

/-- Seconds-per-unit table of `parseRetentionPeriod` (`client.ts`): the
`multipliers` record `{s: 1, m: 60, h: 3600, d: 86400}`.  The catch-all
branch is unreachable because the regex only captures `[dhms]`. -/
def unitMultiplier : Char → Nat
  | 's' => 1
  | 'm' => 60
  | 'h' => 3600
  | 'd' => 86400
  | _ => 0

/-- Model of matching `^(\d+)([dhms])$` and extracting the two capture
groups: the digit list and the unit character. -/
def splitNumUnit (cs : List Char) : Option (List Char × Char) :=
  match cs.reverse with
  | [] => none
  | u :: rds =>
    let ds := rds.reverse
    if (u == 'd' || u == 'h' || u == 'm' || u == 's')
        && !ds.isEmpty && ds.all Char.isDigit then
      some (ds, u)
    else
      none

/-- Embedding of `InfluxDbFormatter.parseRetentionPeriod` (`client.ts`):
trims and lowercases the input, returns 0 for `"infinite"`, otherwise matches
`^(\d+)([dhms])$` and multiplies the numeral by the unit's seconds; any
other input throws. -/
def parseRetentionPeriod (period : String) : Except String Nat :=
  let trimmed := jsToLower (jsTrim period.data)
  if trimmed = "infinite".data then
    .ok 0
  else
    match splitNumUnit trimmed with
    | none =>
      .error ("Invalid retention period format: \"" ++ period ++
        "\". Must be like \"30d\", \"1y\", \"12h\", or \"infinite\".")
    | some (ds, u) => .ok (digitsToNat ds * unitMultiplier u)

/-- Embedding of `InfluxDbFormatter.formatRetentionPeriod` (`client.ts`):
0 becomes `"infinite"`, otherwise the largest unit among day, hour, minute
that divides evenly is used, falling back to seconds. -/
def formatRetentionPeriod (seconds : Nat) : String :=
  if seconds = 0 then "infinite"
  else if seconds % 86400 = 0 then natDecimal (seconds / 86400) ++ "d"
  else if seconds % 3600 = 0 then natDecimal (seconds / 3600) ++ "h"
  else if seconds % 60 = 0 then natDecimal (seconds / 60) ++ "m"
  else natDecimal seconds ++ "s"

/-- Embedding of `InfluxDbFormatter.getRelativeTime` (`client.ts`).  The
impure read of the current instant (`new Date()`) is made explicit: the
function takes the current epoch milliseconds `nowMs` and the argument
date's epoch milliseconds `dateMs`.  `Math.floor` of a quotient of
integers is floor division (`Int.fdiv`); `Math.abs` is `Int.natAbs`. -/
def getRelativeTime (nowMs dateMs : Int) : String :=
  let diffMs := nowMs - dateMs
  let diffSec := Int.fdiv diffMs 1000
  let diffMin := Int.fdiv diffSec 60
  let diffHour := Int.fdiv diffMin 60
  let diffDay := Int.fdiv diffHour 24
  if diffMs < 0 then
    let absDiffSec := diffSec.natAbs
    let absDiffMin := diffMin.natAbs
    let absDiffHour := diffHour.natAbs
    let absDiffDay := diffDay.natAbs
    if absDiffDay > 0 then
      "in " ++ natDecimal absDiffDay ++ " day" ++ (if absDiffDay > 1 then "s" else "")
    else if absDiffHour > 0 then
      "in " ++ natDecimal absDiffHour ++ " hour" ++ (if absDiffHour > 1 then "s" else "")
    else if absDiffMin > 0 then
      "in " ++ natDecimal absDiffMin ++ " minute" ++ (if absDiffMin > 1 then "s" else "")
    else
      "in " ++ natDecimal absDiffSec ++ " second" ++ (if absDiffSec > 1 then "s" else "")
  else
    if diffDay > 0 then
      natDecimal diffDay.toNat ++ " day" ++ (if diffDay > 1 then "s" else "") ++ " ago"
    else if diffHour > 0 then
      natDecimal diffHour.toNat ++ " hour" ++ (if diffHour > 1 then "s" else "") ++ " ago"
    else if diffMin > 0 then
      natDecimal diffMin.toNat ++ " minute" ++ (if diffMin > 1 then "s" else "") ++ " ago"
    else if diffSec > 0 then
      natDecimal diffSec.toNat ++ " second" ++ (if diffSec > 1 then "s" else "") ++ " ago"
    else
      "just now"

/-- Proleptic-Gregorian civil date (year, month, day) of a day count from
the epoch; models the calendar arithmetic inside `Date.toISOString`. -/
def civilFromDays (z0 : Int) : Int × Nat × Nat :=
  let z := z0 + 719468
  let era := Int.fdiv z 146097
  let doe := (z - era * 146097).toNat
  let yoe := (doe - doe / 1460 + doe / 36524 - doe / 146096) / 365
  let y := era * 400 + yoe
  let doy := doe - (365 * yoe + yoe / 4 - yoe / 100)
  let mp := (5 * doy + 2) / 153
  let d := doy - (153 * mp + 2) / 5 + 1
  let m := if mp < 10 then mp + 3 else mp - 9
  (if m ≤ 2 then y + 1 else y, m, d)

/-- Day count from the epoch of a proleptic-Gregorian civil date; inverse
of `civilFromDays`, models the calendar arithmetic inside `Date` parsing. -/
def daysFromCivil (y0 : Int) (m d : Nat) : Int :=
  let y := if m ≤ 2 then y0 - 1 else y0
  let era := Int.fdiv y 400
  let yoe := (y - era * 400).toNat
  let mp := if 2 < m then m - 3 else m + 9
  let doy := (153 * mp + 2) / 5 + (d - 1)
  let doe := yoe * 365 + yoe / 4 - yoe / 100 + doy
  era * 146097 + (doe : Int) - 719468

/-- Decimal rendering of a natural number padded to width `w` with leading
zeros. -/
def padNat (w n : Nat) : String :=
  let s := natDecimal n
  ⟨List.replicate (w - s.data.length) '0'⟩ ++ s

/-- Model of `Date.prototype.toISOString` for a valid date with time value
`ms`: an ISO-8601 string with millisecond precision and a trailing `Z`.
(The expanded-year form used by JavaScript outside years 0–9999 is
approximated; no claim inspects those years.) -/
def isoString (ms : Int) : String :=
  let days := Int.fdiv ms 86400000
  let msod := (ms - days * 86400000).toNat
  let c := civilFromDays days
  let yearStr :=
    if c.1 < 0 then "-" ++ padNat 6 (-c.1).toNat
    else if c.1 > 9999 then "+" ++ padNat 6 c.1.toNat
    else padNat 4 c.1.toNat
  yearStr ++ "-" ++ padNat 2 c.2.1 ++ "-" ++ padNat 2 c.2.2 ++ "T" ++
    padNat 2 (msod / 3600000) ++ ":" ++ padNat 2 (msod % 3600000 / 60000) ++ ":" ++
    padNat 2 (msod % 60000 / 1000) ++ "." ++ padNat 3 (msod % 1000) ++ "Z"

/-- Model of the `new Date(string)` parser, restricted to the canonical
ISO form `YYYY-MM-DDTHH:MM:SS.mmmZ` (the shape `toISOString` produces);
`none` models an Invalid Date.  No claim depends on the exact extent of
the set of parseable strings, only on parse success being possible. -/
def jsParseDate (s : String) : Option Int :=
  match s.data with
  | [y1, y2, y3, y4, '-', o1, o2, '-', d1, d2, 'T',
     h1, h2, ':', n1, n2, ':', c1, c2, '.', f1, f2, f3, 'Z'] =>
    if [y1, y2, y3, y4, o1, o2, d1, d2, h1, h2, n1, n2, c1, c2, f1, f2, f3].all Char.isDigit then
      let y := digitsToNat [y1, y2, y3, y4]
      let mo := digitsToNat [o1, o2]
      let d := digitsToNat [d1, d2]
      let h := digitsToNat [h1, h2]
      let mi := digitsToNat [n1, n2]
      let se := digitsToNat [c1, c2]
      let f := digitsToNat [f1, f2, f3]
      if 1 ≤ mo && mo ≤ 12 && 1 ≤ d && d ≤ 31 && h ≤ 23 && mi ≤ 59 && se ≤ 59 then
        some (daysFromCivil (y : Int) mo d * 86400000 +
          ((h * 3600000 + mi * 60000 + se * 1000 + f : Nat) : Int))
      else none
    else none
  | _ => none

/-- Model of the `new Date(string)` constructor: a valid `Date` when the
string parses, an Invalid Date (time value NaN) otherwise. -/
def jsNewDate (s : String) : JSValue :=
  match jsParseDate s with
  | some ms => .date (.finite ms)
  | none => .date .nan

/-- Closed enumeration of the `'iso' | 'unix' | 'relative'` union type of
`formatTimestamp`'s `format` parameter. -/
inductive TsFormat where
  | iso
  | unix
  | relative
deriving DecidableEq, Repr

/-- Embedding of `InfluxDbFormatter.formatTimestamp` (`client.ts`): a
string input is first converted with `new Date(...)`, then the switch on
the format produces an ISO string, the epoch milliseconds (`getTime()`),
or the relative rendering.  Calling the `Date` methods on a non-string,
non-`Date` input raises a `TypeError`, and `toISOString` on an Invalid
Date raises a `RangeError`; both are modelled as `Except.error`.  (The
source's `default` switch branch is unreachable for the closed format
type.) -/
def formatTimestamp (nowMs : Int) (timestamp : JSValue) (format : TsFormat) :
    Except String JSValue :=
  let d := match timestamp with
    | .str s => jsNewDate s
    | v => v
  match format with
  | .iso =>
    match d with
    | .date (.finite ms) => .ok (.str (isoString ms))
    | .date _ => .error "RangeError: Invalid time value"
    | _ => .error "TypeError: date.toISOString is not a function"
  | .unix =>
    match d with
    | .date t => .ok (.num t)
    | _ => .error "TypeError: date.getTime is not a function"
  | .relative =>
    match d with
    | .date (.finite ms) => .ok (.str (getRelativeTime nowMs ms))
    | .date _ => .ok (.str "just now")
    | _ => .error "TypeError: date.getTime is not a function"

/-- Row of a Flux result or of the formatter's output: a JavaScript object
modelled as its ordered key/value entries (`Object.entries` order). -/
abbrev Row := List (String × JSValue)

/-- Model of the JavaScript property assignment `row[k] = v`: updates the
entry in place when the key exists, otherwise appends it. -/
def jsSet (row : Row) (k : String) (v : JSValue) : Row :=
  if row.any (fun p => p.1 == k) then
    row.map (fun p => if p.1 == k then (k, v) else p)
  else
    row ++ [(k, v)]

/-- Embedding of the `IFormatOptions` interface (`client.ts`): every field
is optional. -/
structure IFormatOptions where
  timestampFormat : Option TsFormat := none
  flattenTables : Option Bool := none
  limit : Option Int := none

/-- One step of the row-mapping loop body of
`InfluxDbFormatter.formatFluxResults`: processes a single `[key, value]`
entry of the input row into the accumulated output row.  A truthy `_time`
value is re-encoded with `formatTimestamp` and, when the result is a
number, wrapped back into a `Date` (`new Date(formatted)`); `table` and
`result` are dropped; everything else is copied. -/
def formatRowStep (nowMs : Int) (fmt : TsFormat) (acc : Row) (kv : String × JSValue) :
    Except String Row :=
  let k := kv.1
  let v := kv.2
  if k == "_time" && !jsFalsy v then
    match formatTimestamp nowMs v fmt with
    | .error e => .error e
    | .ok formatted =>
      let stored := match formatted with
        | .num t => JSValue.date t
        | x => x
      .ok (jsSet acc "_time" stored)
  else if k == "_measurement" || k == "_field" then
    .ok (jsSet acc k v)
  else if k == "_value" then
    .ok (jsSet acc k v)
  else if k != "table" && k != "result" then
    .ok (jsSet acc k v)
  else
    .ok acc

/-- Fold of `formatRowStep` over the entries of one row, starting from the
empty output object. -/
def buildRow (nowMs : Int) (fmt : TsFormat) : Row → List (String × JSValue) → Except String Row
  | acc, [] => .ok acc
  | acc, kv :: rest =>
    match formatRowStep nowMs fmt acc kv with
    | .error e => .error e
    | .ok acc2 => buildRow nowMs fmt acc2 rest

/-- Mapping of one raw row to one formatted row inside
`InfluxDbFormatter.formatFluxResults` (the `results.map` callback). -/
def formatRow (nowMs : Int) (fmt : TsFormat) (row : Row) : Except String Row :=
  buildRow nowMs fmt [] row

/-- Left-to-right effectful map: models `Array.prototype.map` under a
callback that may throw (the first exception aborts the whole call). -/
def mapExcept (f : α → Except String β) : List α → Except String (List β)
  | [] => .ok []
  | x :: xs =>
    match f x with
    | .error e => .error e
    | .ok y =>
      match mapExcept f xs with
      | .error e => .error e
      | .ok ys => .ok (y :: ys)

/-- Embedding of `InfluxDbFormatter.formatFluxResults` (`client.ts`):
defaults the timestamp format to `iso` and the limit to 0, maps every row
with `formatRow`, then truncates with `slice(0, limit)` when the limit is
positive. -/
def formatFluxResults (nowMs : Int) (results : List Row) (options : Option IFormatOptions) :
    Except String (List Row) :=
  let timestampFormat := (options.bind (fun o => o.timestampFormat)).getD .iso
  let limit := (options.bind (fun o => o.limit)).getD 0
  match mapExcept (formatRow nowMs timestampFormat) results with
  | .error e => .error e
  | .ok formattedRows =>
    if limit > 0 then .ok (formattedRows.take limit.toNat)
    else .ok formattedRows

example : getRelativeTime 0 1800000 = "in 1 day" := rfl
example : getRelativeTime 7200000 0 = "2 hours ago" := rfl
example : getRelativeTime 0 0 = "just now" := rfl
example : getRelativeTime 0 300000 = "in 1 day" := rfl
example : isoString 1704110400000 = "2024-01-01T12:00:00.000Z" := rfl
example : jsParseDate "2024-01-01T12:00:00.000Z" = some 1704110400000 := rfl
example : formatFluxResults 0 [] (some {}) = .ok [] := rfl

example : parseRetentionPeriod "30d" = .ok 2592000 := rfl
example : parseRetentionPeriod "INFINITE" = .ok 0 := rfl
example : parseRetentionPeriod " 30d " = .ok 2592000 := rfl
example : formatRetentionPeriod 86401 = "86401s" := by decide
example : formatRetentionPeriod 0 = "infinite" := by decide
example : (parseRetentionPeriod "30 days").isOk = false := by decide

/-- Embedding of the `IValidationResult` interface (`client.ts`): a pass
flag plus an optional error message. -/
structure IValidationResult where
  valid : Bool
  error : Option String := none
deriving DecidableEq, Repr

/-- Character class `[a-zA-Z0-9_-]` shared by the measurement-name,
key-name and bucket-name regexes. -/
def isNameChar (c : Char) : Bool :=
  c.isAlpha || c.isDigit || c == '_' || c == '-'

/-- Test of `^[a-zA-Z0-9_-]+$`, the `MEASUREMENT_NAME_REGEX`,
`KEY_NAME_REGEX` and `BUCKET_NAME_REGEX` of `InfluxDbValidator` (the three
source regexes are textually identical). -/
def testNameRegex (s : String) : Bool :=
  !s.data.isEmpty && s.data.all isNameChar

/-- Model of `key.startsWith('_')`. -/
def startsWithUnderscore (s : String) : Bool :=
  match s.data with
  | c :: _ => c == '_'
  | [] => false

/-- Boolean test for membership in `^(\d+)([dhms])$`. -/
def numUnitMatch (cs : List Char) : Bool :=
  (splitNumUnit cs).isSome

/-- Test of the case-insensitive `RETENTION_PERIOD_REGEX`
`/^(\d+[dhms]|infinite)$/i`: for ASCII inputs the case-insensitive match
is the match of the lowercased string against the (lowercase) pattern. -/
def retentionRegexTest (s : String) : Bool :=
  let l := jsToLower s.data
  l == "infinite".data || numUnitMatch l

/-- Error message of `validateMeasurementName` for a rejected pattern. -/
def invalidMeasurementMsg (name : String) : String :=
  "Invalid measurement name \"" ++ name ++
    "\". Must contain only alphanumeric characters, hyphens, and underscores."

/-- Error message of `validateKeyName` for a leading underscore. -/
def keyUnderscoreMsg (key : String) : String :=
  "Key \"" ++ key ++ "\" cannot start with underscore (reserved for system use)"

/-- Error message of `validateKeyName` for a rejected pattern. -/
def invalidKeyMsg (key : String) : String :=
  "Invalid key name \"" ++ key ++
    "\". Must contain only alphanumeric characters, hyphens, and underscores."

/-- Error message of `validateBucketName` for a rejected pattern. -/
def invalidBucketMsg (name : String) : String :=
  "Invalid bucket name \"" ++ name ++
    "\". Must contain only alphanumeric characters, hyphens, and underscores."

/-- Error message of `validateRetentionPeriod` for a rejected pattern. -/
def invalidRetentionMsg (period : String) : String :=
  "Invalid retention period \"" ++ period ++
    "\". Must be in format like \"30d\", \"1y\", \"12h\", or \"infinite\"."

/-- Error message of `validateTimestamp` for an unparseable string. -/
def invalidTimestampStrMsg (timestamp : String) : String :=
  "Invalid timestamp string \"" ++ timestamp ++ "\""

/-- Error message of `validateFieldValue` for a wrong runtime type. -/
def invalidFieldTypeMsg (valueType : String) : String :=
  "Invalid field value type \"" ++ valueType ++ "\". Must be string, number, or boolean."

/-- Embedding of `InfluxDbValidator.validateMeasurementName`
(`InfluxDb.node.ts`).  The argument is an arbitrary JavaScript value; the
`!name || typeof name !== 'string'` guard fires before any string
operation, so no `TypeError` can escape. -/
def validateMeasurementName (name : JSValue) : Except String IValidationResult :=
  if jsFalsy name || jsTypeof name != "string" then
    .ok ⟨false, some "Measurement name is required and must be a string"⟩
  else
    match asString name with
    | .error e => .error e
    | .ok s =>
      if !testNameRegex s then .ok ⟨false, some (invalidMeasurementMsg s)⟩
      else .ok ⟨true, none⟩

/-- Embedding of `InfluxDbValidator.validateKeyName` (`InfluxDb.node.ts`):
after the type guard, a leading underscore is rejected first, then the
character-class regex is applied. -/
def validateKeyName (key : JSValue) : Except String IValidationResult :=
  if jsFalsy key || jsTypeof key != "string" then
    .ok ⟨false, some "Key name is required and must be a string"⟩
  else
    match asString key with
    | .error e => .error e
    | .ok s =>
      if startsWithUnderscore s then .ok ⟨false, some (keyUnderscoreMsg s)⟩
      else if !testNameRegex s then .ok ⟨false, some (invalidKeyMsg s)⟩
      else .ok ⟨true, none⟩

/-- Embedding of `InfluxDbValidator.validateBucketName`
(`InfluxDb.node.ts`): type guard, length bound 255, character-class
regex. -/
def validateBucketName (name : JSValue) : Except String IValidationResult :=
  if jsFalsy name || jsTypeof name != "string" then
    .ok ⟨false, some "Bucket name is required and must be a string"⟩
  else
    match asString name with
    | .error e => .error e
    | .ok s =>
      if s.data.length > 255 then
        .ok ⟨false, some "Bucket name must be 255 characters or less"⟩
      else if !testNameRegex s then .ok ⟨false, some (invalidBucketMsg s)⟩
      else .ok ⟨true, none⟩

/-- Embedding of `InfluxDbValidator.validateRetentionPeriod`
(`InfluxDb.node.ts`): type guard, then the anchored case-insensitive
regex `^(\d+[dhms]|infinite)$`. -/
def validateRetentionPeriod (period : JSValue) : Except String IValidationResult :=
  if jsFalsy period || jsTypeof period != "string" then
    .ok ⟨false, some "Retention period is required and must be a string"⟩
  else
    match asString period with
    | .error e => .error e
    | .ok s =>
      if !retentionRegexTest s then .ok ⟨false, some (invalidRetentionMsg s)⟩
      else .ok ⟨true, none⟩

/-- Embedding of `InfluxDbValidator.validateFluxQuery`
(`InfluxDb.node.ts`): type guard, emptiness of the trimmed query, then
balanced counts of parentheses and of square brackets on the trimmed
query. -/
def validateFluxQuery (query : JSValue) : Except String IValidationResult :=
  if jsFalsy query || jsTypeof query != "string" then
    .ok ⟨false, some "Flux query is required and must be a string"⟩
  else
    match asString query with
    | .error e => .error e
    | .ok s =>
      let trimmedQuery := jsTrim s.data
      if trimmedQuery.isEmpty then
        .ok ⟨false, some "Flux query cannot be empty"⟩
      else if trimmedQuery.count '(' != trimmedQuery.count ')' then
        .ok ⟨false, some "Unbalanced parentheses in Flux query"⟩
      else if trimmedQuery.count '[' != trimmedQuery.count ']' then
        .ok ⟨false, some "Unbalanced brackets in Flux query"⟩
      else .ok ⟨true, none⟩

/-- Finiteness test on a modelled JavaScript number (`isFinite`). -/
def jsnumFinite : JSNum → Bool
  | .finite _ => true
  | _ => false

/-- Test of `x < 0` on a modelled JavaScript number: false for NaN and for
positive infinity, true for negative infinity. -/
def jsnumNeg : JSNum → Bool
  | .finite q => q < 0
  | .negInf => true
  | _ => false

/-- Embedding of `InfluxDbValidator.validateTimestamp`
(`InfluxDb.node.ts`): `Date` instances are checked for a NaN time value,
numbers for finiteness and sign, strings are parsed with `new Date(...)`,
and any other type is rejected with a result (never an exception). -/
def validateTimestamp (timestamp : JSValue) : Except String IValidationResult :=
  match timestamp with
  | .date t =>
    if t == .nan then .ok ⟨false, some "Invalid Date object"⟩
    else .ok ⟨true, none⟩
  | .num n =>
    if !jsnumFinite n || jsnumNeg n then
      .ok ⟨false, some "Timestamp must be a positive finite number"⟩
    else .ok ⟨true, none⟩
  | .str s =>
    match jsParseDate s with
    | none => .ok ⟨false, some (invalidTimestampStrMsg s)⟩
    | some _ => .ok ⟨true, none⟩
  | _ => .ok ⟨false, some "Timestamp must be a Date, number, or string"⟩

/-- Embedding of `InfluxDbValidator.validateFieldValue`
(`InfluxDb.node.ts`): the runtime type must be string, number or boolean,
and a number must additionally be finite. -/
def validateFieldValue (value : JSValue) : Except String IValidationResult :=
  let valueType := jsTypeof value
  if valueType != "string" && valueType != "number" && valueType != "boolean" then
    .ok ⟨false, some (invalidFieldTypeMsg valueType)⟩
  else
    match value with
    | .num n =>
      if !jsnumFinite n then .ok ⟨false, some "Numeric field values must be finite"⟩
      else .ok ⟨true, none⟩
    | _ => .ok ⟨true, none⟩

example : validateKeyName (.str "_foo") = .ok ⟨false, some (keyUnderscoreMsg "_foo")⟩ := rfl
example : validateMeasurementName (.str "_foo") = .ok ⟨true, none⟩ := rfl
example : validateFluxQuery (.str "from(bucket: \"x\"") =
    .ok ⟨false, some "Unbalanced parentheses in Flux query"⟩ := rfl
example : validateFluxQuery (.str "   ") = .ok ⟨false, some "Flux query cannot be empty"⟩ := rfl
example : validateFieldValue (.num .nan) = .ok ⟨false, some "Numeric field values must be finite"⟩ := rfl
example : validateFieldValue .null = .ok ⟨false, some (invalidFieldTypeMsg "object")⟩ := rfl
example : validateFieldValue (.str "") = .ok ⟨true, none⟩ := rfl
example : validateRetentionPeriod (.str "30D") = .ok ⟨true, none⟩ := rfl
example : validateRetentionPeriod (.str " 30d ") =
    .ok ⟨false, some (invalidRetentionMsg " 30d ")⟩ := rfl

/-! Helper lemmas about the modelled string builtins. -/

lemma digitVal_digitChar {k : Nat} (hk : k < 10) : digitVal (digitChar k) = k := by
  interval_cases k <;> decide

lemma isDigit_digitChar {k : Nat} (hk : k < 10) : (digitChar k).isDigit = true := by
  interval_cases k <;> decide

lemma natDecRevAux_spec :
    ∀ fuel n, n < fuel →
      natDecRevAux fuel n ≠ [] ∧
      (∀ c ∈ natDecRevAux fuel n, ∃ k, k < 10 ∧ c = digitChar k) ∧
      digitsToNat ((natDecRevAux fuel n).reverse) = n := by
  intro fuel
  induction fuel with
  | zero => intro n hn; exact absurd hn (Nat.not_lt_zero n)
  | succ fuel ih =>
    intro n hn
    by_cases h10 : n < 10
    · refine ⟨by simp [natDecRevAux, h10], ?_, ?_⟩
      · intro c hc
        simp [natDecRevAux, h10] at hc
        exact ⟨n, h10, hc⟩
      · simp [natDecRevAux, h10, digitsToNat, digitVal_digitChar h10]
    · have hdiv : n / 10 < fuel := by
        have h1 : n / 10 < n := Nat.div_lt_self (by omega) (by omega)
        omega
      obtain ⟨hne, hmem, hval⟩ := ih (n / 10) hdiv
      refine ⟨by simp [natDecRevAux, h10], ?_, ?_⟩
      · intro c hc
        simp only [natDecRevAux, h10, if_false, List.mem_cons] at hc
        rcases hc with hc | hc
        · exact ⟨n % 10, Nat.mod_lt n (by omega), hc⟩
        · exact hmem c hc
      · have hsplit : (natDecRevAux (fuel + 1) n).reverse =
            (natDecRevAux fuel (n / 10)).reverse ++ [digitChar (n % 10)] := by
          simp [natDecRevAux, h10]
        rw [hsplit]
        have happ : digitsToNat ((natDecRevAux fuel (n / 10)).reverse ++ [digitChar (n % 10)]) =
            digitsToNat ((natDecRevAux fuel (n / 10)).reverse) * 10 + digitVal (digitChar (n % 10)) := by
          simp [digitsToNat, List.foldl_append]
        rw [happ, hval, digitVal_digitChar (Nat.mod_lt n (by omega))]
        omega

lemma natDecRev_ne_nil (n : Nat) : natDecRev n ≠ [] :=
  (natDecRevAux_spec (n + 1) n (Nat.lt_succ_self n)).1

lemma natDecRev_digits (n : Nat) : ∀ c ∈ natDecRev n, ∃ k, k < 10 ∧ c = digitChar k :=
  (natDecRevAux_spec (n + 1) n (Nat.lt_succ_self n)).2.1

lemma digitsToNat_natDecRev (n : Nat) : digitsToNat ((natDecRev n).reverse) = n :=
  (natDecRevAux_spec (n + 1) n (Nat.lt_succ_self n)).2.2

lemma natDecimal_data (n : Nat) : (natDecimal n).data = (natDecRev n).reverse := rfl

lemma natDecimal_chars (n : Nat) : ∀ c ∈ (natDecimal n).data, ∃ k, k < 10 ∧ c = digitChar k := by
  intro c hc
  rw [natDecimal_data, List.mem_reverse] at hc
  exact natDecRev_digits n c hc

lemma nonws_of_digitChar {k : Nat} (hk : k < 10) : isJsWs (digitChar k) = false := by
  interval_cases k <;> decide

lemma lower_fix_digitChar {k : Nat} (hk : k < 10) : jsToLowerChar (digitChar k) = digitChar k := by
  interval_cases k <;> decide

lemma nonws_of_isDigit {c : Char} (h : c.isDigit = true) : isJsWs c = false := by
  unfold isJsWs
  simp only [Bool.or_eq_false_iff, beq_eq_false_iff_ne]
  refine ⟨⟨⟨⟨⟨?_, ?_⟩, ?_⟩, ?_⟩, ?_⟩, ?_⟩ <;> (rintro rfl; exact absurd h (by decide))

lemma jsToLowerChar_ws {c : Char} (h : isJsWs c = true) : jsToLowerChar c = c := by
  unfold isJsWs at h
  simp only [Bool.or_eq_true, beq_iff_eq] at h
  rcases h with ((((rfl | rfl) | rfl) | rfl) | rfl) | rfl <;> decide

lemma dropWhile_ws_eq {cs : List Char} (h : ∀ c ∈ cs, isJsWs c = false) :
    cs.dropWhile isJsWs = cs := by
  cases cs with
  | nil => rfl
  | cons c t => simp [List.dropWhile_cons, h c (by simp)]

lemma jsTrim_eq_self {cs : List Char} (h : ∀ c ∈ cs, isJsWs c = false) : jsTrim cs = cs := by
  unfold jsTrim
  rw [dropWhile_ws_eq h, dropWhile_ws_eq (by intro c hc; exact h c (List.mem_reverse.mp hc)),
    List.reverse_reverse]

lemma map_fix {α : Type} {f : α → α} {l : List α} (h : ∀ x ∈ l, f x = x) : l.map f = l := by
  induction l with
  | nil => rfl
  | cons a t ih => simp [h a (by simp), ih (fun x hx => h x (by simp [hx]))]

lemma jsToLower_eq_self {cs : List Char} (h : ∀ c ∈ cs, jsToLowerChar c = c) :
    jsToLower cs = cs :=
  map_fix h

/-! Lemmas about `splitNumUnit` and the regex languages. -/

/-- Membership in the language of the regex `^(\d+)([dhms])$`: a non-empty
digit string followed by one unit character. -/
def NumUnitLang (cs : List Char) : Prop :=
  ∃ ds u, cs = ds ++ [u] ∧ ds ≠ [] ∧ (∀ c ∈ ds, c.isDigit = true) ∧
    (u = 'd' ∨ u = 'h' ∨ u = 'm' ∨ u = 's')

lemma splitNumUnit_some {cs : List Char} {ds : List Char} {u : Char}
    (h : splitNumUnit cs = some (ds, u)) :
    cs = ds ++ [u] ∧ ds ≠ [] ∧ (∀ c ∈ ds, c.isDigit = true) ∧
      (u = 'd' ∨ u = 'h' ∨ u = 'm' ∨ u = 's') := by
  unfold splitNumUnit at h
  cases hrev : cs.reverse with
  | nil => rw [hrev] at h; exact absurd h (by simp)
  | cons u0 rds =>
    rw [hrev] at h
    simp only [Option.ite_none_right_eq_some, Option.some.injEq, Prod.mk.injEq] at h
    obtain ⟨hcond, hds, hu⟩ := h
    subst hds; subst hu
    have hcs : cs = rds.reverse ++ [u0] := by
      have := congrArg List.reverse hrev
      simpa using this
    simp only [Bool.and_eq_true, Bool.or_eq_true, beq_iff_eq, Bool.not_eq_true',
      List.isEmpty_eq_false, List.all_eq_true] at hcond
    refine ⟨hcs, ?_, ?_, ?_⟩
    · simpa using hcond.1.2
    · intro c hc; exact hcond.2 c hc
    · rcases hcond.1.1 with ((h | h) | h) | h
      · exact Or.inl h
      · exact Or.inr (Or.inl h)
      · exact Or.inr (Or.inr (Or.inl h))
      · exact Or.inr (Or.inr (Or.inr h))

lemma splitNumUnit_of_lang {ds : List Char} {u : Char}
    (hne : ds ≠ []) (hdig : ∀ c ∈ ds, c.isDigit = true)
    (hu : u = 'd' ∨ u = 'h' ∨ u = 'm' ∨ u = 's') :
    splitNumUnit (ds ++ [u]) = some (ds, u) := by
  have h1 : (u == 'd' || u == 'h' || u == 'm' || u == 's') = true := by
    rcases hu with rfl | rfl | rfl | rfl <;> rfl
  have h2 : (ds.reverse).isEmpty = false := by
    simp [List.isEmpty_eq_false, hne]
  have h3 : (ds.reverse).all Char.isDigit = true := by
    simp only [List.all_eq_true, List.mem_reverse]
    exact hdig
  unfold splitNumUnit
  rw [show (ds ++ [u]).reverse = u :: ds.reverse by simp]
  simp [h1, h2, h3]
  exact ⟨hne, hdig⟩

lemma splitNumUnit_isSome_iff {cs : List Char} :
    (splitNumUnit cs).isSome = true ↔ NumUnitLang cs := by
  constructor
  · intro h
    obtain ⟨⟨ds, u⟩, hds⟩ := Option.isSome_iff_exists.mp h
    obtain ⟨hcs, hne, hdig, hu⟩ := splitNumUnit_some hds
    exact ⟨ds, u, hcs, hne, hdig, hu⟩
  · rintro ⟨ds, u, rfl, hne, hdig, hu⟩
    rw [splitNumUnit_of_lang hne hdig hu]
    rfl

lemma parse_natDecimal_unit (n : Nat) {u : Char}
    (hu : u = 'd' ∨ u = 'h' ∨ u = 'm' ∨ u = 's') :
    parseRetentionPeriod (natDecimal n ++ String.singleton u) = .ok (n * unitMultiplier u) := by
  have hds_ne : (natDecRev n).reverse ≠ [] := by
    simp [natDecRev_ne_nil n]
  have hds_dig : ∀ c ∈ (natDecRev n).reverse, c.isDigit = true := by
    intro c hc
    obtain ⟨k, hk, rfl⟩ := natDecRev_digits n c (List.mem_reverse.mp hc)
    exact isDigit_digitChar hk
  have hu_ws : isJsWs u = false := by rcases hu with rfl | rfl | rfl | rfl <;> decide
  have hu_low : jsToLowerChar u = u := by rcases hu with rfl | rfl | rfl | rfl <;> decide
  have hnws : ∀ c ∈ (natDecRev n).reverse ++ [u], isJsWs c = false := by
    intro c hc
    rcases List.mem_append.mp hc with hc | hc
    · exact nonws_of_isDigit (hds_dig c hc)
    · rw [List.mem_singleton.mp hc]; exact hu_ws
  have hlow : ∀ c ∈ (natDecRev n).reverse ++ [u], jsToLowerChar c = c := by
    intro c hc
    rcases List.mem_append.mp hc with hc | hc
    · obtain ⟨k, hk, rfl⟩ := natDecRev_digits n c (List.mem_reverse.mp hc)
      exact lower_fix_digitChar hk
    · rw [List.mem_singleton.mp hc]; exact hu_low
  have hinf : ¬((natDecRev n).reverse ++ [u] = "infinite".data) := by
    intro he
    obtain ⟨c, t, hct⟩ := List.exists_cons_of_ne_nil hds_ne
    rw [hct] at he
    have hc1 : c = 'i' := by
      have h2 := congrArg List.head? he
      simpa using h2
    have hcmem : c ∈ (natDecRev n).reverse := by rw [hct]; simp
    obtain ⟨k, hk, hck⟩ := natDecRev_digits n c (List.mem_reverse.mp hcmem)
    rw [hc1] at hck
    interval_cases k <;> exact absurd hck (by decide)
  simp only [parseRetentionPeriod]
  rw [show (natDecimal n ++ String.singleton u).data = (natDecRev n).reverse ++ [u] from rfl]
  rw [jsTrim_eq_self hnws, jsToLower_eq_self hlow]
  rw [if_neg hinf]
  rw [splitNumUnit_of_lang hds_ne hds_dig hu]
  simp [digitsToNat_natDecRev n]

/-- C2: for every n in {0, 1, 30, 365} and unit in {d,h,m,s},
`parseRetentionPeriod` of the rendered `n + unit` string gives
`n * {d:86400, h:3600, m:60, s:1}[unit]`; `"infinite"` and `"INFINITE"`
both parse to 0; `formatRetentionPeriod 0 = "infinite"` (never `"0s"`) and
`formatRetentionPeriod 86401 = "86401s"`; and the parse-format round trip
is the identity on every non-negative integer number of seconds. -/
theorem retention_parse_format_spec :
    (∀ n ∈ [0, 1, 30, 365], ∀ u ∈ ['d', 'h', 'm', 's'],
      parseRetentionPeriod (natDecimal n ++ String.singleton u) = .ok (n * unitMultiplier u)) ∧
    parseRetentionPeriod "infinite" = .ok 0 ∧
    parseRetentionPeriod "INFINITE" = .ok 0 ∧
    formatRetentionPeriod 0 = "infinite" ∧
    formatRetentionPeriod 86401 = "86401s" ∧
    (∀ seconds : Nat, parseRetentionPeriod (formatRetentionPeriod seconds) = .ok seconds) := by
  refine ⟨?_, rfl, rfl, rfl, by decide, ?_⟩
  · intro n hn u hu
    apply parse_natDecimal_unit
    fin_cases hu <;> simp
  · intro s
    by_cases h0 : s = 0
    · subst h0; rfl
    · unfold formatRetentionPeriod
      rw [if_neg h0]
      by_cases hd : s % 86400 = 0
      · rw [if_pos hd,
          show (natDecimal (s / 86400) ++ "d") = natDecimal (s / 86400) ++ String.singleton 'd'
            from rfl,
          parse_natDecimal_unit _ (by tauto)]
        have hc : s / 86400 * 86400 = s := Nat.div_mul_cancel (Nat.dvd_of_mod_eq_zero hd)
        simp [unitMultiplier, hc]
      · rw [if_neg hd]
        by_cases hh : s % 3600 = 0
        · rw [if_pos hh,
            show (natDecimal (s / 3600) ++ "h") = natDecimal (s / 3600) ++ String.singleton 'h'
              from rfl,
            parse_natDecimal_unit _ (by tauto)]
          have hc : s / 3600 * 3600 = s := Nat.div_mul_cancel (Nat.dvd_of_mod_eq_zero hh)
          simp [unitMultiplier, hc]
        · rw [if_neg hh]
          by_cases hm : s % 60 = 0
          · rw [if_pos hm,
              show (natDecimal (s / 60) ++ "m") = natDecimal (s / 60) ++ String.singleton 'm'
                from rfl,
              parse_natDecimal_unit _ (by tauto)]
            have hc : s / 60 * 60 = s := Nat.div_mul_cancel (Nat.dvd_of_mod_eq_zero hm)
            simp [unitMultiplier, hc]
          · rw [if_neg hm,
              show (natDecimal s ++ "s") = natDecimal s ++ String.singleton 's' from rfl,
              parse_natDecimal_unit _ (by tauto)]
            simp [unitMultiplier]

/-- Witness for the C2 theorem: the quantified conjunct instantiated at
n = 30 and unit d. -/
theorem retention_parse_format_spec_witness :
    (30 ∈ [0, 1, 30, 365]) ∧ ('d' ∈ ['d', 'h', 'm', 's']) ∧
      parseRetentionPeriod (natDecimal 30 ++ String.singleton 'd') = .ok (30 * unitMultiplier 'd') :=
  ⟨by decide, by decide, retention_parse_format_spec.1 30 (by decide) 'd' (by decide)⟩

/-- C1: evaluation of `getRelativeTime` at the specification's reference
points.  The present instant gives `"just now"` and a date two hours in
the past gives `"2 hours ago"`, as claimed; but a date 30 minutes in the
future evaluates to `"in 1 day"`, not to a string matching
`in \d+ minutes?`: `Math.floor` on the negative quotients drives every
future difference down to `diffDay ≤ -1` before `Math.abs` is taken, so
every future instant lands in the day branch.  The code contradicts both
the specification's unit-selection rule for future instants and its own
doc-comment example `"in 5 minutes"`, which is unreachable output. -/
theorem getRelativeTime_eval :
    getRelativeTime 1700000000000 1700000000000 = "just now" ∧
    getRelativeTime 1700000000000 (1700000000000 - 7200000) = "2 hours ago" ∧
    getRelativeTime 1700000000000 (1700000000000 + 1800000) = "in 1 day" :=
  ⟨rfl, rfl, rfl⟩

/-! Total result functions of the validators.  Each `...Result` function is
the same translation of the source validator as the `Except`-valued
embedding, with the `Except` layer stripped: the lemma `validate..._eq`
below proves that the validator returns normally (never raises) on every
input and returns exactly this result.  The catch-all object branches are
unreachable because the type guard has already fired on every non-string
input. -/

/-- Result of `validateMeasurementName` as a total function. -/
def measurementNameResult (name : JSValue) : IValidationResult :=
  if jsFalsy name || jsTypeof name != "string" then
    ⟨false, some "Measurement name is required and must be a string"⟩
  else
    match name with
    | .str s =>
      if !testNameRegex s then ⟨false, some (invalidMeasurementMsg s)⟩
      else ⟨true, none⟩
    | _ => ⟨true, none⟩

/-- Result of `validateKeyName` as a total function. -/
def keyNameResult (key : JSValue) : IValidationResult :=
  if jsFalsy key || jsTypeof key != "string" then
    ⟨false, some "Key name is required and must be a string"⟩
  else
    match key with
    | .str s =>
      if startsWithUnderscore s then ⟨false, some (keyUnderscoreMsg s)⟩
      else if !testNameRegex s then ⟨false, some (invalidKeyMsg s)⟩
      else ⟨true, none⟩
    | _ => ⟨true, none⟩

/-- Result of `validateBucketName` as a total function. -/
def bucketNameResult (name : JSValue) : IValidationResult :=
  if jsFalsy name || jsTypeof name != "string" then
    ⟨false, some "Bucket name is required and must be a string"⟩
  else
    match name with
    | .str s =>
      if s.data.length > 255 then ⟨false, some "Bucket name must be 255 characters or less"⟩
      else if !testNameRegex s then ⟨false, some (invalidBucketMsg s)⟩
      else ⟨true, none⟩
    | _ => ⟨true, none⟩

/-- Result of `validateRetentionPeriod` as a total function. -/
def retentionPeriodResult (period : JSValue) : IValidationResult :=
  if jsFalsy period || jsTypeof period != "string" then
    ⟨false, some "Retention period is required and must be a string"⟩
  else
    match period with
    | .str s =>
      if !retentionRegexTest s then ⟨false, some (invalidRetentionMsg s)⟩
      else ⟨true, none⟩
    | _ => ⟨true, none⟩

/-- Result of `validateFluxQuery` as a total function. -/
def fluxQueryResult (query : JSValue) : IValidationResult :=
  if jsFalsy query || jsTypeof query != "string" then
    ⟨false, some "Flux query is required and must be a string"⟩
  else
    match query with
    | .str s =>
      let trimmedQuery := jsTrim s.data
      if trimmedQuery.isEmpty then ⟨false, some "Flux query cannot be empty"⟩
      else if trimmedQuery.count '(' != trimmedQuery.count ')' then
        ⟨false, some "Unbalanced parentheses in Flux query"⟩
      else if trimmedQuery.count '[' != trimmedQuery.count ']' then
        ⟨false, some "Unbalanced brackets in Flux query"⟩
      else ⟨true, none⟩
    | _ => ⟨true, none⟩

/-- Result of `validateTimestamp` as a total function. -/
def timestampResult (timestamp : JSValue) : IValidationResult :=
  match timestamp with
  | .date t =>
    if t == .nan then ⟨false, some "Invalid Date object"⟩
    else ⟨true, none⟩
  | .num n =>
    if !jsnumFinite n || jsnumNeg n then
      ⟨false, some "Timestamp must be a positive finite number"⟩
    else ⟨true, none⟩
  | .str s =>
    match jsParseDate s with
    | none => ⟨false, some (invalidTimestampStrMsg s)⟩
    | some _ => ⟨true, none⟩
  | _ => ⟨false, some "Timestamp must be a Date, number, or string"⟩

/-- Result of `validateFieldValue` as a total function. -/
def fieldValueResult (value : JSValue) : IValidationResult :=
  let valueType := jsTypeof value
  if valueType != "string" && valueType != "number" && valueType != "boolean" then
    ⟨false, some (invalidFieldTypeMsg valueType)⟩
  else
    match value with
    | .num n =>
      if !jsnumFinite n then ⟨false, some "Numeric field values must be finite"⟩
      else ⟨true, none⟩
    | _ => ⟨true, none⟩

lemma guard_true {v : JSValue} (h : ∀ s, v ≠ JSValue.str s) :
    (jsFalsy v || jsTypeof v != "string") = true := by
  cases v <;> first
    | exact absurd rfl (h _)
    | exact Bool.or_eq_true_iff.mpr (Or.inr rfl)

lemma validateMeasurementName_eq (v : JSValue) :
    validateMeasurementName v = .ok (measurementNameResult v) := by
  by_cases hstr : ∃ s, v = JSValue.str s
  · obtain ⟨s, rfl⟩ := hstr
    cases hg : (jsFalsy (JSValue.str s) || jsTypeof (JSValue.str s) != "string") with
    | false =>
      simp only [validateMeasurementName, measurementNameResult, hg, asString]
      cases hr : testNameRegex s <;> simp [hr]
    | true => simp [validateMeasurementName, measurementNameResult, hg]
  · simp [validateMeasurementName, measurementNameResult,
      guard_true (fun s h => hstr ⟨s, h⟩)]

lemma validateKeyName_eq (v : JSValue) :
    validateKeyName v = .ok (keyNameResult v) := by
  by_cases hstr : ∃ s, v = JSValue.str s
  · obtain ⟨s, rfl⟩ := hstr
    cases hg : (jsFalsy (JSValue.str s) || jsTypeof (JSValue.str s) != "string") with
    | false =>
      simp only [validateKeyName, keyNameResult, hg, asString]
      cases h1 : startsWithUnderscore s <;> cases h2 : testNameRegex s <;> simp [h1, h2]
    | true => simp [validateKeyName, keyNameResult, hg]
  · simp [validateKeyName, keyNameResult, guard_true (fun s h => hstr ⟨s, h⟩)]

lemma validateBucketName_eq (v : JSValue) :
    validateBucketName v = .ok (bucketNameResult v) := by
  by_cases hstr : ∃ s, v = JSValue.str s
  · obtain ⟨s, rfl⟩ := hstr
    cases hg : (jsFalsy (JSValue.str s) || jsTypeof (JSValue.str s) != "string") with
    | false =>
      simp only [validateBucketName, bucketNameResult, hg, asString]
      by_cases h1 : 255 < s.length
      · simp [h1]
      · cases h2 : testNameRegex s <;> simp [h1, h2]
    | true => simp [validateBucketName, bucketNameResult, hg]
  · simp [validateBucketName, bucketNameResult, guard_true (fun s h => hstr ⟨s, h⟩)]

lemma validateRetentionPeriod_eq (v : JSValue) :
    validateRetentionPeriod v = .ok (retentionPeriodResult v) := by
  by_cases hstr : ∃ s, v = JSValue.str s
  · obtain ⟨s, rfl⟩ := hstr
    cases hg : (jsFalsy (JSValue.str s) || jsTypeof (JSValue.str s) != "string") with
    | false =>
      simp only [validateRetentionPeriod, retentionPeriodResult, hg, asString]
      cases h1 : retentionRegexTest s <;> simp [h1]
    | true => simp [validateRetentionPeriod, retentionPeriodResult, hg]
  · simp [validateRetentionPeriod, retentionPeriodResult, guard_true (fun s h => hstr ⟨s, h⟩)]

lemma validateFluxQuery_eq (v : JSValue) :
    validateFluxQuery v = .ok (fluxQueryResult v) := by
  by_cases hstr : ∃ s, v = JSValue.str s
  · obtain ⟨s, rfl⟩ := hstr
    cases hg : (jsFalsy (JSValue.str s) || jsTypeof (JSValue.str s) != "string") with
    | false =>
      simp only [validateFluxQuery, fluxQueryResult, hg, asString]
      cases h1 : (jsTrim s.data).isEmpty
      · cases h2 : ((jsTrim s.data).count '(' != (jsTrim s.data).count ')')
        · cases h3 : ((jsTrim s.data).count '[' != (jsTrim s.data).count ']') <;>
            simp [h1, h2, h3]
        · simp [h1, h2]
      · simp [h1]
    | true => simp [validateFluxQuery, fluxQueryResult, hg]
  · simp [validateFluxQuery, fluxQueryResult, guard_true (fun s h => hstr ⟨s, h⟩)]

lemma validateTimestamp_eq (v : JSValue) :
    validateTimestamp v = .ok (timestampResult v) := by
  cases v with
  | str s => cases hp : jsParseDate s <;> simp [validateTimestamp, timestampResult, hp]
  | num n =>
    cases hb : (!jsnumFinite n || jsnumNeg n) <;>
      simp [validateTimestamp, timestampResult, hb]
  | date t =>
    cases hb : (t == JSNum.nan) <;> simp [validateTimestamp, timestampResult, hb]
  | bool b => rfl
  | null => rfl
  | undefined => rfl
  | object => rfl
  | array => rfl

lemma validateFieldValue_eq (v : JSValue) :
    validateFieldValue v = .ok (fieldValueResult v) := by
  cases v with
  | num n => cases n <;> rfl
  | str s => rfl
  | bool b => rfl
  | null => rfl
  | undefined => rfl
  | object => rfl
  | array => rfl
  | date t => rfl

/-- C3: every validator returns a `ValidationResult` on every input of any
runtime type and never raises — each one agrees with a total result
function — whereas `parseRetentionPeriod` raises exactly when its trimmed,
lowercased input is neither `"infinite"` nor in the language of
`^(\d+)([dhms])$`. -/
theorem validators_never_throw_parse_raises :
    (∀ v, validateMeasurementName v = .ok (measurementNameResult v)) ∧
    (∀ v, validateKeyName v = .ok (keyNameResult v)) ∧
    (∀ v, validateBucketName v = .ok (bucketNameResult v)) ∧
    (∀ v, validateRetentionPeriod v = .ok (retentionPeriodResult v)) ∧
    (∀ v, validateFluxQuery v = .ok (fluxQueryResult v)) ∧
    (∀ v, validateTimestamp v = .ok (timestampResult v)) ∧
    (∀ v, validateFieldValue v = .ok (fieldValueResult v)) ∧
    (∀ p : String, (∃ e, parseRetentionPeriod p = .error e) ↔
      ¬(jsToLower (jsTrim p.data) = "infinite".data ∨
        NumUnitLang (jsToLower (jsTrim p.data)))) := by
  refine ⟨validateMeasurementName_eq, validateKeyName_eq, validateBucketName_eq,
    validateRetentionPeriod_eq, validateFluxQuery_eq, validateTimestamp_eq,
    validateFieldValue_eq, ?_⟩
  intro p
  by_cases hinf : jsToLower (jsTrim p.data) = "infinite".data
  · constructor
    · rintro ⟨e, he⟩
      rw [show parseRetentionPeriod p = .ok 0 from by
        simp [parseRetentionPeriod, hinf]] at he
      exact Except.noConfusion he
    · intro h; exact absurd (Or.inl hinf) h
  · cases hs : splitNumUnit (jsToLower (jsTrim p.data)) with
    | none =>
      constructor
      · intro _
        rintro (h | h)
        · exact hinf h
        · have h2 := splitNumUnit_isSome_iff.mpr h
          rw [hs] at h2
          exact Bool.noConfusion h2
      · intro _
        exact ⟨"Invalid retention period format: \"" ++ p ++
          "\". Must be like \"30d\", \"1y\", \"12h\", or \"infinite\".", by
          simp [parseRetentionPeriod, hinf, hs]⟩
    | some du =>
      obtain ⟨ds, u⟩ := du
      constructor
      · rintro ⟨e, he⟩
        rw [show parseRetentionPeriod p = .ok (digitsToNat ds * unitMultiplier u) from by
          simp [parseRetentionPeriod, hinf, hs]] at he
        exact Except.noConfusion he
      · intro h
        exfalso
        apply h
        right
        apply splitNumUnit_isSome_iff.mp
        rw [hs]
        rfl

/-- Witness for the C3 theorem: the raise-condition instantiated at the
non-matching input `"bogus"`, which makes `parseRetentionPeriod` raise. -/
theorem validators_never_throw_witness :
    ∃ e, parseRetentionPeriod "bogus" = .error e :=
  (validators_never_throw_parse_raises.2.2.2.2.2.2.2 "bogus").mpr (by
    rintro (h | h)
    · exact absurd h (by decide)
    · exact absurd (splitNumUnit_isSome_iff.mpr h) (by decide))

/-- Well-formedness of a validation result: a passing result carries no
error and a failing result carries a non-empty error message. -/
def WF (r : IValidationResult) : Prop :=
  (r.valid = true → r.error = none) ∧
  (r.valid = false → ∃ e, r.error = some e ∧ 0 < e.length)

lemma wf_true : WF ⟨true, none⟩ :=
  ⟨fun _ => rfl, fun h => Bool.noConfusion h⟩

lemma wf_false {m : String} (h : 0 < m.length) : WF ⟨false, some m⟩ :=
  ⟨fun h2 => Bool.noConfusion h2, fun _ => ⟨m, rfl, h⟩⟩

lemma len_pos_left (a b : String) (h : 0 < a.length) : 0 < (a ++ b).length := by
  rw [String.length_append]
  omega

lemma guard_false_of_ne {s : String} (h : s ≠ "") :
    (jsFalsy (JSValue.str s) || jsTypeof (JSValue.str s) != "string") = false := by
  simp [jsFalsy, jsTypeof, h]

lemma wf_measurementNameResult (v : JSValue) : WF (measurementNameResult v) := by
  cases hg : (jsFalsy v || jsTypeof v != "string") with
  | true =>
    simp only [measurementNameResult, hg, if_true]
    exact wf_false (by decide)
  | false =>
    cases v with
    | str s =>
      simp only [measurementNameResult, hg]
      cases hr : testNameRegex s <;> simp [hr]
      · exact wf_false (len_pos_left _ _ (len_pos_left _ _ (by decide)))
      · exact wf_true
    | num n => simp only [measurementNameResult, hg]; exact wf_true
    | bool b => simp only [measurementNameResult, hg]; exact wf_true
    | null => simp only [measurementNameResult, hg]; exact wf_true
    | undefined => simp only [measurementNameResult, hg]; exact wf_true
    | object => simp only [measurementNameResult, hg]; exact wf_true
    | array => simp only [measurementNameResult, hg]; exact wf_true
    | date t => simp only [measurementNameResult, hg]; exact wf_true

lemma wf_keyNameResult (v : JSValue) : WF (keyNameResult v) := by
  cases hg : (jsFalsy v || jsTypeof v != "string") with
  | true =>
    simp only [keyNameResult, hg, if_true]
    exact wf_false (by decide)
  | false =>
    cases v with
    | str s =>
      simp only [keyNameResult, hg]
      cases h1 : startsWithUnderscore s <;> simp [h1]
      · cases h2 : testNameRegex s <;> simp [h2]
        · exact wf_false (len_pos_left _ _ (len_pos_left _ _ (by decide)))
        · exact wf_true
      · exact wf_false (len_pos_left _ _ (len_pos_left _ _ (by decide)))
    | num n => simp only [keyNameResult, hg]; exact wf_true
    | bool b => simp only [keyNameResult, hg]; exact wf_true
    | null => simp only [keyNameResult, hg]; exact wf_true
    | undefined => simp only [keyNameResult, hg]; exact wf_true
    | object => simp only [keyNameResult, hg]; exact wf_true
    | array => simp only [keyNameResult, hg]; exact wf_true
    | date t => simp only [keyNameResult, hg]; exact wf_true

lemma wf_bucketNameResult (v : JSValue) : WF (bucketNameResult v) := by
  cases hg : (jsFalsy v || jsTypeof v != "string") with
  | true =>
    simp only [bucketNameResult, hg, if_true]
    exact wf_false (by decide)
  | false =>
    cases v with
    | str s =>
      simp only [bucketNameResult, hg]
      by_cases h1 : 255 < s.length
      · simp [h1]
        exact wf_false (by decide)
      · cases h2 : testNameRegex s <;> simp [h1, h2]
        · exact wf_false (len_pos_left _ _ (len_pos_left _ _ (by decide)))
        · exact wf_true
    | num n => simp only [bucketNameResult, hg]; exact wf_true
    | bool b => simp only [bucketNameResult, hg]; exact wf_true
    | null => simp only [bucketNameResult, hg]; exact wf_true
    | undefined => simp only [bucketNameResult, hg]; exact wf_true
    | object => simp only [bucketNameResult, hg]; exact wf_true
    | array => simp only [bucketNameResult, hg]; exact wf_true
    | date t => simp only [bucketNameResult, hg]; exact wf_true

lemma wf_retentionPeriodResult (v : JSValue) : WF (retentionPeriodResult v) := by
  cases hg : (jsFalsy v || jsTypeof v != "string") with
  | true =>
    simp only [retentionPeriodResult, hg, if_true]
    exact wf_false (by decide)
  | false =>
    cases v with
    | str s =>
      simp only [retentionPeriodResult, hg]
      cases h1 : retentionRegexTest s <;> simp [h1]
      · exact wf_false (len_pos_left _ _ (len_pos_left _ _ (by decide)))
      · exact wf_true
    | num n => simp only [retentionPeriodResult, hg]; exact wf_true
    | bool b => simp only [retentionPeriodResult, hg]; exact wf_true
    | null => simp only [retentionPeriodResult, hg]; exact wf_true
    | undefined => simp only [retentionPeriodResult, hg]; exact wf_true
    | object => simp only [retentionPeriodResult, hg]; exact wf_true
    | array => simp only [retentionPeriodResult, hg]; exact wf_true
    | date t => simp only [retentionPeriodResult, hg]; exact wf_true

lemma wf_fluxQueryResult (v : JSValue) : WF (fluxQueryResult v) := by
  cases hg : (jsFalsy v || jsTypeof v != "string") with
  | true =>
    simp only [fluxQueryResult, hg, if_true]
    exact wf_false (by decide)
  | false =>
    cases v with
    | str s =>
      simp only [fluxQueryResult, hg]
      cases h1 : (jsTrim s.data).isEmpty <;> simp [h1]
      · by_cases h2 : (jsTrim s.data).count '(' = (jsTrim s.data).count ')'
        · simp only [h2]
          by_cases h3 : (jsTrim s.data).count '[' = (jsTrim s.data).count ']'
          · simp [h2, h3]
            exact wf_true
          · simp [h2, h3]
            exact wf_false (by decide)
        · simp [h2]
          exact wf_false (by decide)
      · exact wf_false (by decide)
    | num n => simp only [fluxQueryResult, hg]; exact wf_true
    | bool b => simp only [fluxQueryResult, hg]; exact wf_true
    | null => simp only [fluxQueryResult, hg]; exact wf_true
    | undefined => simp only [fluxQueryResult, hg]; exact wf_true
    | object => simp only [fluxQueryResult, hg]; exact wf_true
    | array => simp only [fluxQueryResult, hg]; exact wf_true
    | date t => simp only [fluxQueryResult, hg]; exact wf_true

lemma wf_timestampResult (v : JSValue) : WF (timestampResult v) := by
  cases v with
  | str s =>
    cases hp : jsParseDate s <;> simp [timestampResult, hp]
    · exact wf_false (len_pos_left _ _ (len_pos_left _ _ (by decide)))
    · exact wf_true
  | num n =>
    cases hb : (!jsnumFinite n || jsnumNeg n) <;> simp [timestampResult, hb]
    · exact wf_true
    · exact wf_false (by decide)
  | date t =>
    cases hb : (t == JSNum.nan) <;> simp [timestampResult, hb]
    · exact wf_true
    · exact wf_false (by decide)
  | bool b => exact wf_false (by decide)
  | null => exact wf_false (by decide)
  | undefined => exact wf_false (by decide)
  | object => exact wf_false (by decide)
  | array => exact wf_false (by decide)

lemma wf_fieldValueResult (v : JSValue) : WF (fieldValueResult v) := by
  cases v with
  | num n =>
    cases n with
    | finite q => exact wf_true
    | nan => exact wf_false (by decide)
    | inf => exact wf_false (by decide)
    | negInf => exact wf_false (by decide)
  | str s => exact wf_true
  | bool b => exact wf_true
  | null => exact wf_false (by decide)
  | undefined => exact wf_false (by decide)
  | object => exact wf_false (by decide)
  | array => exact wf_false (by decide)
  | date t => exact @wf_false (invalidFieldTypeMsg "object") (by decide)

/-- C7: for every validator and every input, the returned result is
well-formed: a passing result carries no error, a failing result carries a
non-empty error message. -/
theorem validation_result_wellformed :
    ∀ v : JSValue,
      (∀ r, validateMeasurementName v = .ok r → WF r) ∧
      (∀ r, validateKeyName v = .ok r → WF r) ∧
      (∀ r, validateBucketName v = .ok r → WF r) ∧
      (∀ r, validateRetentionPeriod v = .ok r → WF r) ∧
      (∀ r, validateFluxQuery v = .ok r → WF r) ∧
      (∀ r, validateTimestamp v = .ok r → WF r) ∧
      (∀ r, validateFieldValue v = .ok r → WF r) := by
  intro v
  refine ⟨?_, ?_, ?_, ?_, ?_, ?_, ?_⟩ <;> intro r h
  · rw [validateMeasurementName_eq v] at h
    injection h with h2
    subst h2
    exact wf_measurementNameResult v
  · rw [validateKeyName_eq v] at h
    injection h with h2
    subst h2
    exact wf_keyNameResult v
  · rw [validateBucketName_eq v] at h
    injection h with h2
    subst h2
    exact wf_bucketNameResult v
  · rw [validateRetentionPeriod_eq v] at h
    injection h with h2
    subst h2
    exact wf_retentionPeriodResult v
  · rw [validateFluxQuery_eq v] at h
    injection h with h2
    subst h2
    exact wf_fluxQueryResult v
  · rw [validateTimestamp_eq v] at h
    injection h with h2
    subst h2
    exact wf_timestampResult v
  · rw [validateFieldValue_eq v] at h
    injection h with h2
    subst h2
    exact wf_fieldValueResult v

/-- Witness for the C7 theorem: the measurement-name conjunct at the
passing input `"cpu"`. -/
theorem validation_result_wellformed_witness : WF ⟨true, none⟩ :=
  (validation_result_wellformed (.str "cpu")).1 ⟨true, none⟩ rfl

/-- C4: every string over the character class `[A-Za-z0-9_-]` that starts
with an underscore is rejected by `validateKeyName` (with the reserved-key
error) while `validateMeasurementName` accepts it: the underscore-prefix
restriction applies to key names only. -/
theorem underscore_prefix_asymmetry :
    ∀ s : String, startsWithUnderscore s = true → testNameRegex s = true →
      validateKeyName (.str s) = .ok ⟨false, some (keyUnderscoreMsg s)⟩ ∧
      0 < (keyUnderscoreMsg s).length ∧
      validateMeasurementName (.str s) = .ok ⟨true, none⟩ := by
  intro s h1 h2
  have hne : s ≠ "" := by
    intro he
    subst he
    exact Bool.noConfusion h1
  have hg := guard_false_of_ne hne
  refine ⟨?_, len_pos_left _ _ (len_pos_left _ _ (by decide)), ?_⟩
  · rw [validateKeyName_eq]
    simp [keyNameResult, hg, h1]
  · rw [validateMeasurementName_eq]
    simp [measurementNameResult, hg, h2]

/-- Witness for the C4 theorem at the specification's example `"_foo"`. -/
theorem underscore_prefix_asymmetry_witness :
    validateKeyName (.str "_foo") = .ok ⟨false, some (keyUnderscoreMsg "_foo")⟩ ∧
    0 < (keyUnderscoreMsg "_foo").length ∧
    validateMeasurementName (.str "_foo") = .ok ⟨true, none⟩ :=
  underscore_prefix_asymmetry "_foo" (by decide) (by decide)

/-- C9: `validateFieldValue` accepts exactly the strings (including the
empty string), the booleans, and the finite numbers; NaN, the two
infinities, null, undefined, objects and arrays are rejected. -/
theorem validateFieldValue_spec :
    (∀ v r, validateFieldValue v = .ok r →
      (r.valid = true ↔
        (∃ s, v = JSValue.str s) ∨ (∃ b, v = JSValue.bool b) ∨
          (∃ q, v = JSValue.num (.finite q)))) ∧
    validateFieldValue (.num .nan) = .ok ⟨false, some "Numeric field values must be finite"⟩ ∧
    validateFieldValue (.num .inf) = .ok ⟨false, some "Numeric field values must be finite"⟩ ∧
    validateFieldValue (.num .negInf) = .ok ⟨false, some "Numeric field values must be finite"⟩ ∧
    validateFieldValue .null = .ok ⟨false, some (invalidFieldTypeMsg "object")⟩ ∧
    validateFieldValue .undefined = .ok ⟨false, some (invalidFieldTypeMsg "undefined")⟩ ∧
    validateFieldValue .object = .ok ⟨false, some (invalidFieldTypeMsg "object")⟩ ∧
    validateFieldValue .array = .ok ⟨false, some (invalidFieldTypeMsg "object")⟩ ∧
    (∀ s, validateFieldValue (.str s) = .ok ⟨true, none⟩) ∧
    (∀ b, validateFieldValue (.bool b) = .ok ⟨true, none⟩) ∧
    (∀ q : Int, validateFieldValue (.num (.finite q)) = .ok ⟨true, none⟩) := by
  refine ⟨?_, rfl, rfl, rfl, rfl, rfl, rfl, rfl, fun s => rfl, fun b => rfl, fun q => rfl⟩
  intro v r h
  rw [validateFieldValue_eq] at h
  injection h with h2
  subst h2
  cases v with
  | str s => simp [fieldValueResult, jsTypeof]
  | bool b => simp [fieldValueResult, jsTypeof]
  | num n => cases n <;> simp [fieldValueResult, jsTypeof, jsnumFinite]
  | null => simp [fieldValueResult, jsTypeof]
  | undefined => simp [fieldValueResult, jsTypeof]
  | object => simp [fieldValueResult, jsTypeof]
  | array => simp [fieldValueResult, jsTypeof]
  | date t => simp [fieldValueResult, jsTypeof]

/-- Witness for the C9 theorem: the acceptance condition at the string
input `"x"`. -/
theorem validateFieldValue_spec_witness :
    (⟨true, none⟩ : IValidationResult).valid = true ↔
      (∃ s, JSValue.str "x" = JSValue.str s) ∨ (∃ b, JSValue.str "x" = JSValue.bool b) ∨
        (∃ q, JSValue.str "x" = JSValue.num (.finite q)) :=
  validateFieldValue_spec.1 (.str "x") ⟨true, none⟩ rfl

/-- C10: whenever `validateRetentionPeriod` accepts a string (its regex is
case-insensitive, so `"30D"` and `"INFINITE"` pass), `parseRetentionPeriod`
returns a number without raising; the containment is strict because the
parser also accepts surrounding whitespace (`" 30d "`) that the anchored
validator regex rejects. -/
theorem validateRetentionPeriod_refines_parse :
    (∀ s : String, ∀ r, validateRetentionPeriod (.str s) = .ok r → r.valid = true →
      ∃ n, parseRetentionPeriod s = .ok n) ∧
    parseRetentionPeriod " 30d " = .ok 2592000 ∧
    validateRetentionPeriod (.str " 30d ") = .ok ⟨false, some (invalidRetentionMsg " 30d ")⟩ ∧
    validateRetentionPeriod (.str "30D") = .ok ⟨true, none⟩ ∧
    validateRetentionPeriod (.str "INFINITE") = .ok ⟨true, none⟩ := by
  refine ⟨?_, rfl, rfl, rfl, rfl⟩
  intro s r h hv
  rw [validateRetentionPeriod_eq] at h
  injection h with h2
  subst h2
  cases hg : (jsFalsy (JSValue.str s) || jsTypeof (JSValue.str s) != "string") with
  | true => simp [retentionPeriodResult, hg] at hv
  | false =>
    cases ht : retentionRegexTest s with
    | false => simp [retentionPeriodResult, hg, ht] at hv
    | true =>
      have hl : jsToLower s.data = "infinite".data ∨
          (splitNumUnit (jsToLower s.data)).isSome = true := by
        have ht2 := ht
        unfold retentionRegexTest numUnitMatch at ht2
        simp only [Bool.or_eq_true, beq_iff_eq] at ht2
        exact ht2
      have hnws : ∀ c ∈ s.data, isJsWs c = false := by
        intro c hc
        cases hwsb : isJsWs c with
        | false => rfl
        | true =>
          exfalso
          have hlc : jsToLowerChar c = c := jsToLowerChar_ws hwsb
          have hcl : c ∈ jsToLower s.data := by
            rw [← hlc]
            exact List.mem_map_of_mem _ hc
          rcases hl with hinf | hnum
          · rw [hinf] at hcl
            rw [show "infinite".data = ['i', 'n', 'f', 'i', 'n', 'i', 't', 'e'] from rfl] at hcl
            simp only [List.mem_cons, List.not_mem_nil, or_false] at hcl
            rcases hcl with rfl | rfl | rfl | rfl | rfl | rfl | rfl | rfl <;>
              exact Bool.noConfusion hwsb
          · obtain ⟨⟨ds, u⟩, hdu⟩ := Option.isSome_iff_exists.mp hnum
            obtain ⟨hsplit, hdsne, hdig, hu⟩ := splitNumUnit_some hdu
            rw [hsplit] at hcl
            rcases List.mem_append.mp hcl with hmem | hmem
            · have hdc := nonws_of_isDigit (hdig c hmem)
              rw [hwsb] at hdc
              exact Bool.noConfusion hdc
            · have hcu : c = u := List.mem_singleton.mp hmem
              subst hcu
              rcases hu with rfl | rfl | rfl | rfl <;> exact Bool.noConfusion hwsb
      have htrim : jsTrim s.data = s.data := jsTrim_eq_self hnws
      rcases hl with hinf | hnum
      · exact ⟨0, by simp [parseRetentionPeriod, htrim, hinf]⟩
      · obtain ⟨⟨ds, u⟩, hdu⟩ := Option.isSome_iff_exists.mp hnum
        by_cases hinf2 : jsToLower s.data = "infinite".data
        · exact ⟨0, by simp [parseRetentionPeriod, htrim, hinf2]⟩
        · exact ⟨digitsToNat ds * unitMultiplier u, by
            simp [parseRetentionPeriod, htrim, hinf2, hdu]⟩

/-- Witness for the C10 theorem at the accepted input `"30d"`. -/
theorem validateRetentionPeriod_refines_parse_witness :
    ∃ n, parseRetentionPeriod "30d" = .ok n :=
  validateRetentionPeriod_refines_parse.1 "30d" ⟨true, none⟩ rfl rfl

lemma count_dropWhile_ws {c : Char} (hc : isJsWs c = false) (cs : List Char) :
    (cs.dropWhile isJsWs).count c = cs.count c := by
  have hsplit : cs.takeWhile isJsWs ++ cs.dropWhile isJsWs = cs :=
    List.takeWhile_append_dropWhile isJsWs cs
  conv_rhs => rw [← hsplit]
  rw [List.count_append]
  have h0 : (cs.takeWhile isJsWs).count c = 0 := by
    rw [List.count_eq_zero]
    intro hmem
    have hp := List.mem_takeWhile_imp hmem
    rw [hc] at hp
    exact Bool.noConfusion hp
  omega

lemma count_jsTrim {c : Char} (hc : isJsWs c = false) (cs : List Char) :
    (jsTrim cs).count c = cs.count c := by
  unfold jsTrim
  rw [List.count_reverse, count_dropWhile_ws hc, List.count_reverse,
    count_dropWhile_ws hc]

/-- C8: `validateFluxQuery` fails exactly when the query is empty or
whitespace-only, or the count of `(` differs from the count of `)`, or the
count of `[` differs from the count of `]`; the unbalanced-parenthesis
example fails with the parenthesis error and the whitespace-only example
with the emptiness error; every other string is accepted. -/
theorem validateFluxQuery_spec :
    (∀ s : String, ∀ r, validateFluxQuery (.str s) = .ok r →
      (r.valid = false ↔
        (jsTrim s.data = [] ∨ s.data.count '(' ≠ s.data.count ')' ∨
          s.data.count '[' ≠ s.data.count ']'))) ∧
    validateFluxQuery (.str "from(bucket: \"x\"") =
      .ok ⟨false, some "Unbalanced parentheses in Flux query"⟩ ∧
    validateFluxQuery (.str "   ") = .ok ⟨false, some "Flux query cannot be empty"⟩ := by
  refine ⟨?_, rfl, rfl⟩
  intro s r h
  rw [validateFluxQuery_eq] at h
  injection h with h2
  subst h2
  by_cases hs : s = ""
  · subst hs
    simp [fluxQueryResult, jsFalsy, jsTrim]
  · have hg := guard_false_of_ne hs
    have hp1 : (jsTrim s.data).count '(' = s.data.count '(' := count_jsTrim (by decide) _
    have hp2 : (jsTrim s.data).count ')' = s.data.count ')' := count_jsTrim (by decide) _
    have hp3 : (jsTrim s.data).count '[' = s.data.count '[' := count_jsTrim (by decide) _
    have hp4 : (jsTrim s.data).count ']' = s.data.count ']' := count_jsTrim (by decide) _
    simp only [fluxQueryResult, hg, Bool.false_eq_true, if_false]
    cases h1 : (jsTrim s.data).isEmpty with
    | true =>
      have h1b : jsTrim s.data = [] := by simpa [List.isEmpty_iff] using h1
      simp [h1, h1b]
    | false =>
      have h1b : ¬(jsTrim s.data = []) := by
        simpa [List.isEmpty_eq_false] using h1
      by_cases hq2 : (jsTrim s.data).count '(' = (jsTrim s.data).count ')'
      · by_cases hq3 : (jsTrim s.data).count '[' = (jsTrim s.data).count ']'
        · simp [h1, h1b, ← hp1, ← hp2, ← hp3, ← hp4, hq2, hq3]
        · simp [h1, ← hp3, ← hp4, hq2, hq3]
      · simp [h1, ← hp1, ← hp2, hq2]

/-- Truthiness-or-well-typedness of a `_time` value: either falsy (then it
is copied through unformatted) or a valid `Date`, or a string the `Date`
parser accepts.  Rows produced by the Flux client satisfy this. -/
def TimeOk (v : JSValue) : Prop :=
  jsFalsy v = true ∨ (∃ ms, v = JSValue.date (.finite ms)) ∨
    (∃ s, v = JSValue.str s ∧ (jsParseDate s).isSome = true)

/-- Entries of a row whose `_time` values are `TimeOk`. -/
def RowTimeOk (row : Row) : Prop :=
  ∀ kv ∈ row, kv.1 = "_time" → TimeOk kv.2

/-- Rows all of whose `_time` values are `TimeOk`. -/
def RowsTimeOk (rows : List Row) : Prop :=
  ∀ row ∈ rows, RowTimeOk row

lemma formatTimestamp_ok {nowMs : Int} {v : JSValue} (fmt : TsFormat)
    (hv : (∃ ms, v = JSValue.date (.finite ms)) ∨
      (∃ s, v = JSValue.str s ∧ (jsParseDate s).isSome = true)) :
    ∃ w, formatTimestamp nowMs v fmt = .ok w := by
  rcases hv with ⟨ms, rfl⟩ | ⟨s, rfl, hp⟩
  · cases fmt <;> exact ⟨_, rfl⟩
  · obtain ⟨ms, hms⟩ := Option.isSome_iff_exists.mp hp
    cases fmt <;> simp [formatTimestamp, jsNewDate, hms]

lemma formatRowStep_ok (nowMs : Int) (fmt : TsFormat) (acc : Row) (kv : String × JSValue)
    (h : kv.1 = "_time" → TimeOk kv.2) :
    ∃ acc2, formatRowStep nowMs fmt acc kv = .ok acc2 := by
  obtain ⟨k, v⟩ := kv
  simp only [formatRowStep]
  cases hk : (k == "_time") with
  | false =>
    rw [if_neg (by simp : ¬((false && !jsFalsy v) = true))]
    repeat' split
    all_goals exact ⟨_, rfl⟩
  | true =>
    cases hf : jsFalsy v with
    | true =>
      rw [if_neg (by decide : ¬((true && !true) = true))]
      repeat' split
      all_goals exact ⟨_, rfl⟩
    | false =>
      have hkeq : k = "_time" := by simpa using hk
      rcases h hkeq with hfal | hv
      · rw [hf] at hfal
        exact Bool.noConfusion hfal
      · obtain ⟨w, hw⟩ := formatTimestamp_ok fmt hv
        rw [if_pos (by decide : ((true && !false) = true)), hw]
        exact ⟨_, rfl⟩

lemma buildRow_ok (nowMs : Int) (fmt : TsFormat) :
    ∀ (entries : List (String × JSValue)) (acc : Row),
      (∀ kv ∈ entries, kv.1 = "_time" → TimeOk kv.2) →
      ∃ out, buildRow nowMs fmt acc entries = .ok out := by
  intro entries
  induction entries with
  | nil => intro acc _; exact ⟨acc, rfl⟩
  | cons kv rest ih =>
    intro acc h
    obtain ⟨acc2, h2⟩ := formatRowStep_ok nowMs fmt acc kv (fun hk => h kv (by simp) hk)
    obtain ⟨out, h3⟩ := ih acc2 (fun x hx hk => h x (by simp [hx]) hk)
    exact ⟨out, by simp [buildRow, h2, h3]⟩

lemma formatRow_ok (nowMs : Int) (fmt : TsFormat) (row : Row) (h : RowTimeOk row) :
    ∃ out, formatRow nowMs fmt row = .ok out :=
  buildRow_ok nowMs fmt row [] h

lemma mapExcept_ok {α β : Type} (f : α → Except String β) :
    ∀ (l : List α), (∀ x ∈ l, ∃ y, f x = .ok y) →
      ∃ ys, mapExcept f l = .ok ys ∧ ys.length = l.length := by
  intro l
  induction l with
  | nil => intro _; exact ⟨[], rfl, rfl⟩
  | cons x xs ih =>
    intro h
    obtain ⟨y, hy⟩ := h x (by simp)
    obtain ⟨ys, hys, hlen⟩ := ih (fun a ha => h a (by simp [ha]))
    exact ⟨y :: ys, by simp [mapExcept, hy, hys], by simp [hlen]⟩

/-- C5: on well-typed rows, `formatFluxResults` maps every row in order
and, when the limit is a positive integer, returns exactly the first
`min(limit, length rows)` mapped rows in original order; a zero, negative
or absent limit leaves the sequence unbounded (`limit 2` on a 3-row input
yields exactly the first 2 mapped rows); and the empty input with empty
options yields the empty sequence. -/
theorem formatFluxResults_limit_spec :
    (∀ (nowMs : Int) (rows : List Row) (fmt : Option TsFormat) (flat : Option Bool) (lim : Int),
      RowsTimeOk rows →
      ∃ mapped, mapExcept (formatRow nowMs (fmt.getD .iso)) rows = .ok mapped ∧
        mapped.length = rows.length ∧
        (0 < lim →
          formatFluxResults nowMs rows (some ⟨fmt, flat, some lim⟩) = .ok (mapped.take lim.toNat) ∧
          (mapped.take lim.toNat).length = min lim.toNat rows.length) ∧
        (lim ≤ 0 → formatFluxResults nowMs rows (some ⟨fmt, flat, some lim⟩) = .ok mapped) ∧
        formatFluxResults nowMs rows (some ⟨fmt, flat, none⟩) = .ok mapped) ∧
    (∀ (nowMs : Int) (r1 r2 r3 : Row) (fmt : Option TsFormat) (flat : Option Bool),
      RowsTimeOk [r1, r2, r3] →
      ∃ m1 m2, formatRow nowMs (fmt.getD .iso) r1 = .ok m1 ∧
        formatRow nowMs (fmt.getD .iso) r2 = .ok m2 ∧
        formatFluxResults nowMs [r1, r2, r3] (some ⟨fmt, flat, some 2⟩) = .ok [m1, m2]) ∧
    (∀ nowMs : Int, formatFluxResults nowMs [] (some {}) = .ok []) := by
  refine ⟨?_, ?_, fun nowMs => rfl⟩
  · intro nowMs rows fmt flat lim h
    obtain ⟨mapped, hm, hlen⟩ :=
      mapExcept_ok (formatRow nowMs (fmt.getD .iso)) rows
        (fun row hr => formatRow_ok nowMs (fmt.getD .iso) row (h row hr))
    refine ⟨mapped, hm, hlen, ?_, ?_, ?_⟩
    · intro hpos
      constructor
      · simp [formatFluxResults, hm, hpos]
      · rw [List.length_take, hlen]
    · intro hneg
      have hnp : ¬(0 < lim) := not_lt.mpr hneg
      simp [formatFluxResults, hm, hnp]
    · simp [formatFluxResults, hm]
  · intro nowMs r1 r2 r3 fmt flat h
    obtain ⟨m1, h1⟩ := formatRow_ok nowMs (fmt.getD .iso) r1 (h r1 (by simp))
    obtain ⟨m2, h2⟩ := formatRow_ok nowMs (fmt.getD .iso) r2 (h r2 (by simp))
    obtain ⟨m3, h3⟩ := formatRow_ok nowMs (fmt.getD .iso) r3 (h r3 (by simp))
    refine ⟨m1, m2, h1, h2, ?_⟩
    simp [formatFluxResults, mapExcept, h1, h2, h3]

/-- Witness for the C5 theorem: three one-entry tag rows with limit 2. -/
theorem formatFluxResults_limit_witness :
    ∃ m1 m2,
      formatRow 0 ((none : Option TsFormat).getD .iso) [("tagA", JSValue.bool true)] = .ok m1 ∧
      formatRow 0 ((none : Option TsFormat).getD .iso) [("tagB", JSValue.bool true)] = .ok m2 ∧
      formatFluxResults 0
          [[("tagA", JSValue.bool true)], [("tagB", JSValue.bool true)],
            [("tagC", JSValue.bool true)]]
          (some ⟨none, none, some 2⟩) = .ok [m1, m2] :=
  formatFluxResults_limit_spec.2.1 0 [("tagA", JSValue.bool true)] [("tagB", JSValue.bool true)]
    [("tagC", JSValue.bool true)] none none (by
      intro row hr kv hk hkey
      simp only [List.mem_cons, List.not_mem_nil, or_false] at hr
      rcases hr with rfl | rfl | rfl <;>
        (simp only [List.mem_cons, List.not_mem_nil, or_false] at hk; subst hk;
          exact absurd hkey (by decide)))

lemma jsSet_mem_keep {row : Row} {d : JSValue} {k : String} {v : JSValue}
    (hmem : ("_time", d) ∈ row) (hk : k ≠ "_time") :
    ("_time", d) ∈ jsSet row k v := by
  unfold jsSet
  split
  · have hne : (("_time", d).1 == k) = false :=
      beq_eq_false_iff_ne.mpr (fun h => hk h.symm)
    have himg := List.mem_map_of_mem (fun p => if p.1 == k then (k, v) else p) hmem
    simpa [hne] using himg
  · exact List.mem_append_left _ hmem

lemma jsSet_no_time {row : Row} {k : String} {v : JSValue}
    (hrow : "_time" ∉ row.map Prod.fst) (hk : k ≠ "_time") :
    "_time" ∉ (jsSet row k v).map Prod.fst := by
  unfold jsSet
  split
  · intro hx
    rw [List.map_map, List.mem_map] at hx
    obtain ⟨p, hp, hpx⟩ := hx
    by_cases hpk : (p.1 == k) = true
    · simp only [Function.comp, hpk, if_true] at hpx
      exact hk hpx
    · have hpk2 : (p.1 == k) = false := by
        cases hb : (p.1 == k) with
        | true => exact absurd hb hpk
        | false => rfl
      simp only [Function.comp, hpk2, Bool.false_eq_true, if_false] at hpx
      exact hrow (List.mem_map.mpr ⟨p, hp, hpx⟩)
  · intro hx
    rw [List.map_append, List.mem_append] at hx
    rcases hx with hx | hx
    · exact hrow hx
    · simp only [List.map_cons, List.map_nil, List.mem_singleton] at hx
      exact hk hx.symm

lemma jsSet_append_of_not_mem {row : Row} {k : String} {v : JSValue}
    (h : k ∉ row.map Prod.fst) : jsSet row k v = row ++ [(k, v)] := by
  unfold jsSet
  split
  · rename_i hany
    exfalso
    obtain ⟨p, hp, hpk⟩ := List.any_eq_true.mp hany
    exact h (List.mem_map.mpr ⟨p, hp, beq_iff_eq.mp hpk⟩)
  · rfl

lemma formatRowStep_not_time (nowMs : Int) (fmt : TsFormat) (acc : Row)
    (kv : String × JSValue) (hk : kv.1 ≠ "_time") :
    formatRowStep nowMs fmt acc kv = .ok (jsSet acc kv.1 kv.2) ∨
    formatRowStep nowMs fmt acc kv = .ok acc := by
  obtain ⟨k, v⟩ := kv
  have hkb : (k == "_time") = false := beq_eq_false_iff_ne.mpr hk
  simp only [formatRowStep]
  have hcond : (k == "_time" && !jsFalsy v) = false := by rw [hkb]; rfl
  rw [hcond, if_neg (by decide : ¬((false : Bool) = true))]
  repeat' split
  all_goals first | exact Or.inl rfl | exact Or.inr rfl

lemma buildRow_preserve {nowMs : Int} {fmt : TsFormat} {d : JSValue} :
    ∀ (entries : List (String × JSValue)) (acc out : Row),
      (∀ kv ∈ entries, kv.1 ≠ "_time") →
      ("_time", d) ∈ acc →
      buildRow nowMs fmt acc entries = .ok out →
      ("_time", d) ∈ out := by
  intro entries
  induction entries with
  | nil =>
    intro acc out _ hmem hb
    injection hb with hb2
    rw [← hb2]
    exact hmem
  | cons kv rest ih =>
    intro acc out hne hmem hb
    rcases formatRowStep_not_time nowMs fmt acc kv
        (hne kv (by simp)) with hstep | hstep <;>
      rw [show buildRow nowMs fmt acc (kv :: rest) =
          match formatRowStep nowMs fmt acc kv with
          | .error e => .error e
          | .ok acc2 => buildRow nowMs fmt acc2 rest from rfl, hstep] at hb
    · exact ih (jsSet acc kv.1 kv.2) out (fun x hx => hne x (by simp [hx]))
        (jsSet_mem_keep hmem (hne kv (by simp))) hb
    · exact ih acc out (fun x hx => hne x (by simp [hx])) hmem hb

lemma buildRow_no_time {nowMs : Int} {fmt : TsFormat} :
    ∀ (entries : List (String × JSValue)) (acc out : Row),
      (∀ kv ∈ entries, kv.1 ≠ "_time") →
      "_time" ∉ acc.map Prod.fst →
      buildRow nowMs fmt acc entries = .ok out →
      "_time" ∉ out.map Prod.fst := by
  intro entries
  induction entries with
  | nil =>
    intro acc out _ hacc hb
    injection hb with hb2
    rw [← hb2]
    exact hacc
  | cons kv rest ih =>
    intro acc out hne hacc hb
    rcases formatRowStep_not_time nowMs fmt acc kv
        (hne kv (by simp)) with hstep | hstep <;>
      rw [show buildRow nowMs fmt acc (kv :: rest) =
          match formatRowStep nowMs fmt acc kv with
          | .error e => .error e
          | .ok acc2 => buildRow nowMs fmt acc2 rest from rfl, hstep] at hb
    · exact ih (jsSet acc kv.1 kv.2) out (fun x hx => hne x (by simp [hx]))
        (jsSet_no_time hacc (hne kv (by simp))) hb
    · exact ih acc out (fun x hx => hne x (by simp [hx])) hacc hb

lemma buildRow_append {nowMs : Int} {fmt : TsFormat} :
    ∀ (l1 l2 : List (String × JSValue)) (acc : Row),
      buildRow nowMs fmt acc (l1 ++ l2) =
        match buildRow nowMs fmt acc l1 with
        | .error e => .error e
        | .ok acc2 => buildRow nowMs fmt acc2 l2 := by
  intro l1
  induction l1 with
  | nil => intro l2 acc; rfl
  | cons kv rest ih =>
    intro l2 acc
    show (match formatRowStep nowMs fmt acc kv with
      | Except.error e => (Except.error e : Except String Row)
      | Except.ok acc2 => buildRow nowMs fmt acc2 (rest ++ l2)) =
      match buildRow nowMs fmt acc (kv :: rest) with
      | Except.error e => (Except.error e : Except String Row)
      | Except.ok acc2 => buildRow nowMs fmt acc2 l2
    cases h : formatRowStep nowMs fmt acc kv with
    | error e =>
      rw [show buildRow nowMs fmt acc (kv :: rest) =
          match formatRowStep nowMs fmt acc kv with
          | .error e => .error e
          | .ok acc2 => buildRow nowMs fmt acc2 rest from rfl, h]
    | ok acc2 =>
      rw [show buildRow nowMs fmt acc (kv :: rest) =
          match formatRowStep nowMs fmt acc kv with
          | .error e => .error e
          | .ok acc2 => buildRow nowMs fmt acc2 rest from rfl, h]
      exact ih l2 acc2

/-- C6 (amended): under the `unix` timestamp format, a well-formed row
whose `_time` entry is a valid `Date` maps to a row whose `_time` is again
a `Date` wrapping the same epoch milliseconds (`new Date(formatted)`), and
the intermediate `formatTimestamp` value is the integer milliseconds. -/
theorem unix_time_date_wrapped :
    ∀ (nowMs : Int) (pre post : List (String × JSValue)) (ms : Int) (out : Row),
      "_time" ∉ pre.map Prod.fst → "_time" ∉ post.map Prod.fst →
      formatRow nowMs .unix (pre ++ ("_time", JSValue.date (.finite ms)) :: post) = .ok out →
      ("_time", JSValue.date (.finite ms)) ∈ out ∧
      formatTimestamp nowMs (JSValue.date (.finite ms)) .unix = .ok (.num (.finite ms)) := by
  intro nowMs pre post ms out hpre hpost hfr
  refine ⟨?_, rfl⟩
  unfold formatRow at hfr
  rw [buildRow_append] at hfr
  have hpre_ne : ∀ kv ∈ pre, kv.1 ≠ "_time" := by
    intro kv hkv he
    exact hpre (by rw [← he]; exact List.mem_map_of_mem Prod.fst hkv)
  obtain ⟨acc0, h0⟩ := buildRow_ok nowMs .unix pre []
    (fun kv hkv hk => absurd hk (hpre_ne kv hkv))
  rw [h0] at hfr
  have hfr2 : buildRow nowMs .unix acc0 (("_time", JSValue.date (.finite ms)) :: post) =
      .ok out := hfr
  have hacc0 : "_time" ∉ acc0.map Prod.fst :=
    buildRow_no_time pre [] acc0 hpre_ne (by simp) h0
  rw [show buildRow nowMs .unix acc0 (("_time", JSValue.date (.finite ms)) :: post) =
      match formatRowStep nowMs .unix acc0 ("_time", JSValue.date (.finite ms)) with
      | .error e => .error e
      | .ok acc2 => buildRow nowMs .unix acc2 post from rfl] at hfr2
  rw [show formatRowStep nowMs .unix acc0 ("_time", JSValue.date (.finite ms)) =
      .ok (jsSet acc0 "_time" (JSValue.date (.finite ms))) from rfl] at hfr2
  rw [jsSet_append_of_not_mem hacc0] at hfr2
  have hpost_ne : ∀ kv ∈ post, kv.1 ≠ "_time" := by
    intro kv hkv he
    exact hpost (by rw [← he]; exact List.mem_map_of_mem Prod.fst hkv)
  exact buildRow_preserve post _ out hpost_ne (by simp) hfr2

/-- Witness for the amended C6 theorem at a single-entry row. -/
theorem unix_time_date_wrapped_witness :
    ("_time", JSValue.date (.finite 42)) ∈ [("_time", JSValue.date (.finite 42))] ∧
    formatTimestamp 0 (JSValue.date (.finite 42)) .unix = .ok (.num (.finite 42)) :=
  unix_time_date_wrapped 0 [] [] 42 [("_time", JSValue.date (.finite 42))]
    (by simp) (by simp) rfl

/-- C6 (counterexample to the claim as stated): under the `unix` format the
output row's `_time` is a `Date` object, not the integer milliseconds: the
mapping wraps the number back with `new Date(formatted)`, as the unit test
`expect(typeof results[0]._time).toBe('object')` confirms. -/
theorem unix_time_not_integer_output :
    formatFluxResults 0 [[("_time", JSValue.date (.finite 1704110400000))]]
        (some ⟨some .unix, none, none⟩) =
      .ok [[("_time", JSValue.date (.finite 1704110400000))]] ∧
    JSValue.date (.finite 1704110400000) ≠ JSValue.num (.finite 1704110400000) :=
  ⟨rfl, fun h => JSValue.noConfusion h⟩

/-- Witness for the C8 theorem: the failure condition instantiated at the
unbalanced-parenthesis example. -/
theorem validateFluxQuery_spec_witness :
    (⟨false, some "Unbalanced parentheses in Flux query"⟩ : IValidationResult).valid = false ↔
      (jsTrim "from(bucket: \"x\"".data = [] ∨
        "from(bucket: \"x\"".data.count '(' ≠ "from(bucket: \"x\"".data.count ')' ∨
        "from(bucket: \"x\"".data.count '[' ≠ "from(bucket: \"x\"".data.count ']') :=
  validateFluxQuery_spec.1 "from(bucket: \"x\""
    ⟨false, some "Unbalanced parentheses in Flux query"⟩ rfl

end InfluxDb
